import Mathlib

/-!
Shallow embedding of the invoice persistence and sequence-numbering engine
(`invoiceService` in the repository's service module) together with proofs
about its behaviour.  Machine numbers are embedded as `ℚ`/`ℤ`, Firestore
documents as Lean structures, and the stateful operations as explicit
state-passing functions.
-/

namespace Invoicing

/-! ### Sequence allocator (createInvoice, transaction body)

The counter document `counters/invoices` holds a single field
`lastInvoiceNumber`.  The code reads it with `Number(data.lastInvoiceNumber) || 0`,
so a missing or non-numeric field coerces to `0`; an absent document yields
`nextNumber = 1` directly. -/

/-- The possible states of the `lastInvoiceNumber` field of the counter
document: a numeric value, an absent field, or a non-numeric value
(`Number(...)` returns `NaN`, and `NaN || 0` is `0`). -/
inductive CounterVal where
  | num (n : ℤ)
  | fieldMissing
  | nonNumeric
deriving DecidableEq, Repr

/-- `Number(data.lastInvoiceNumber) || 0`. -/
def counterCoerce : CounterVal → ℤ
  | .num n => n
  | .fieldMissing => 0
  | .nonNumeric => 0

/-- `let nextNumber = 1; if (counterDoc.exists()) nextNumber = (Number(data.lastInvoiceNumber) || 0) + 1`.
`none` models an absent counter document. -/
def nextInvoiceNumber : Option CounterVal → ℤ
  | none => 1
  | some v => counterCoerce v + 1

/-- `nextNumber.toString().padStart(3, '0')` together with
`new Date().getFullYear().toString().slice(-2)`. -/
def padStart3 (s : String) : String :=
  String.mk (List.replicate (3 - s.length) '0') ++ s

/-- Last two characters of the decimal year, as in `toString().slice(-2)`. -/
def yearShort (year : ℕ) : String :=
  let s := toString year
  s.drop (s.length - 2)

/-- The zero-padded numeric suffix of a minted invoice number. -/
def paddedSuffix (n : ℤ) : String := padStart3 (toString n)

/-- `` `BILL/${currentYearShort}/${paddedNumber}` ``. -/
def mkInvoiceNumber (year : ℕ) (n : ℤ) : String :=
  "BILL/" ++ yearShort year ++ "/" ++ paddedSuffix n

/-- One committed `createInvoice` transaction: mints the next number and
writes `{ lastInvoiceNumber: nextNumber }` back to the counter document. -/
def allocStep (c : Option CounterVal) : Option CounterVal × ℤ :=
  (some (.num (nextInvoiceNumber c)), nextInvoiceNumber c)

/-- A sequence of `createInvoice` transactions, each flag telling whether the
transaction commits (`true`) or aborts (`false`).  An aborted Firestore
transaction discards all of its writes, so it leaves the counter untouched
and mints nothing. -/
def runAlloc : Option CounterVal → List Bool → Option CounterVal × List ℤ
  | c, [] => (c, [])
  | c, b :: bs =>
    if b then
      let st := allocStep c
      let rest := runAlloc st.1 bs
      (rest.1, st.2 :: rest.2)
    else
      runAlloc c bs

theorem range_map_shift (K : ℤ) (M : ℕ) :
    K :: (List.range M).map (fun i : ℕ => K + 1 + (i : ℤ)) =
      (List.range (M + 1)).map (fun i : ℕ => K + (i : ℤ)) := by
  rw [List.range_succ_eq_map, List.map_cons, List.map_map]
  have h0 : K + ((0 : ℕ) : ℤ) = K := by push_cast; ring
  rw [h0]
  refine congrArg (List.cons K) ?_
  refine List.map_congr_left ?_
  intro i _
  simp only [Function.comp_apply, Nat.succ_eq_add_one]
  push_cast
  ring

theorem runAlloc_spec (c : Option CounterVal) (bs : List Bool) :
    (runAlloc c bs).2 =
      (List.range (bs.count true)).map (fun i : ℕ => nextInvoiceNumber c + (i : ℤ)) ∧
    nextInvoiceNumber (runAlloc c bs).1 = nextInvoiceNumber c + bs.count true := by
  induction bs generalizing c with
  | nil => simp [runAlloc]
  | cons b bs ih =>
    cases b with
    | false =>
      have h := ih c
      have hred : runAlloc c (false :: bs) = runAlloc c bs := rfl
      have hcnt : (false :: bs).count true = bs.count true :=
        List.count_cons_of_ne (by simp) bs
      rw [hred, hcnt]
      exact h
    | true =>
      obtain ⟨h1, h2⟩ := ih (some (.num (nextInvoiceNumber c)))
      have hnext : nextInvoiceNumber (some (.num (nextInvoiceNumber c)))
          = nextInvoiceNumber c + 1 := rfl
      rw [hnext] at h1 h2
      have hred : runAlloc c (true :: bs) =
          ((runAlloc (some (.num (nextInvoiceNumber c))) bs).1,
            nextInvoiceNumber c ::
              (runAlloc (some (.num (nextInvoiceNumber c))) bs).2) := rfl
      have hcnt : (true :: bs).count true = bs.count true + 1 :=
        List.count_cons_self true bs
      refine ⟨?_, ?_⟩
      · rw [hred, hcnt]
        show nextInvoiceNumber c :: _ = _
        rw [h1, range_map_shift]
      · rw [hred, hcnt]
        show nextInvoiceNumber (runAlloc _ bs).1 = _
        rw [h2]
        push_cast
        ring

/-- C1: starting from a counter document whose `lastInvoiceNumber` is `K`, any
sequence of `createInvoice` transactions mints, across its committed
transactions, exactly the contiguous ascending run `K+1, K+2, ...` with no
duplicates (in particular a run of `N` commits mints `K+1 .. K+N`), and the
counter advances only by the number of commits, so an aborted transaction
consumes no number. -/
theorem createInvoice_numbers_gapless (K : ℤ) (bs : List Bool) :
    (runAlloc (some (.num K)) bs).2 =
      (List.range (bs.count true)).map (fun i : ℕ => K + 1 + (i : ℤ)) ∧
    (runAlloc (some (.num K)) bs).2.Nodup ∧
    nextInvoiceNumber (runAlloc (some (.num K)) bs).1 = (K + 1) + bs.count true ∧
    (∀ N : ℕ, (runAlloc (some (.num K)) (List.replicate N true)).2 =
      (List.range N).map (fun i : ℕ => K + 1 + (i : ℤ))) := by
  obtain ⟨h1, h2⟩ := runAlloc_spec (some (.num K)) bs
  have hK : nextInvoiceNumber (some (.num K)) = K + 1 := rfl
  rw [hK] at h1 h2
  refine ⟨h1, ?_, h2, ?_⟩
  · rw [h1]
    refine List.Nodup.map ?_ (List.nodup_range _)
    intro a b hab
    have hab' : (a : ℤ) = (b : ℤ) := by
      have := hab
      simp only at this
      linarith
    exact_mod_cast hab'
  · intro N
    have h := (runAlloc_spec (some (.num K)) (List.replicate N true)).1
    rw [hK] at h
    rw [h, List.count_replicate_self]

/-- C6: with the counter document absent and the wall-clock year 2025, the
first allocation mints `"BILL/25/001"`; the 1000th allocation of an
all-commit run mints numeric value 1000, and its rendering is
`"BILL/25/1000"` — the width-3 zero padding is a minimum, not a cap. -/
theorem freshScope_first_and_thousandth_numbers :
    mkInvoiceNumber 2025 (nextInvoiceNumber none) = "BILL/25/001" ∧
    (runAlloc none (List.replicate 1000 true)).2[999]? = some 1000 ∧
    mkInvoiceNumber 2025 1000 = "BILL/25/1000" := by
  refine ⟨by decide, ?_, by decide⟩
  have h := (runAlloc_spec none (List.replicate 1000 true)).1
  rw [h, List.count_replicate_self, List.getElem?_map, List.getElem?_range]
  norm_num [nextInvoiceNumber]
  norm_num

/-- C9: a counter document whose `lastInvoiceNumber` field is missing or
non-numeric is coerced to 0 by `Number(...) || 0`, so the allocation yields
number 1 with suffix `"001"` — exactly as when the document is absent. -/
theorem counter_field_missing_or_nonnumeric_allocates_one (v : CounterVal)
    (h : v = .fieldMissing ∨ v = .nonNumeric) :
    nextInvoiceNumber (some v) = 1 ∧
    nextInvoiceNumber (some v) = nextInvoiceNumber none ∧
    paddedSuffix (nextInvoiceNumber (some v)) = "001" := by
  rcases h with h | h <;> subst h <;> exact ⟨rfl, rfl, by decide⟩

theorem counter_field_missing_or_nonnumeric_allocates_one_witness :
    nextInvoiceNumber (some .fieldMissing) = 1 ∧
    nextInvoiceNumber (some .fieldMissing) = nextInvoiceNumber none ∧
    paddedSuffix (nextInvoiceNumber (some .fieldMissing)) = "001" :=
  counter_field_missing_or_nonnumeric_allocates_one .fieldMissing (Or.inl rfl)

/-- C10: the counter stores only `lastInvoiceNumber` with no year component,
and the minted suffix depends only on the counter, the year only on the
wall clock; so a year change never resets the suffix: after counter 499, the
next allocation in 2026 mints `"BILL/26/500"`, not a fresh `"001"`. -/
theorem year_change_does_not_reset_counter (y : ℕ) (c : Option CounterVal) :
    mkInvoiceNumber y (nextInvoiceNumber c) =
      "BILL/" ++ yearShort y ++ "/" ++ paddedSuffix (nextInvoiceNumber c) ∧
    nextInvoiceNumber (some (.num 499)) = 500 ∧
    (allocStep (some (.num 499))).1 = some (.num 500) ∧
    mkInvoiceNumber 2026 (nextInvoiceNumber (some (.num 499))) = "BILL/26/500" ∧
    paddedSuffix (nextInvoiceNumber (some (.num 499))) ≠ "001" :=
  ⟨rfl, rfl, rfl, by decide, by decide⟩

/-! ### createInvoice amount computation

`createInvoice` first normalizes the submitted items with
`Number(item.quantity) || 0` and `Number(item.price) || 0`, then computes
`subTotal`, `discountAmount` and `grandTotal` and stores all of them on the
header.  `Option ℚ` models a JavaScript value that is either numeric
(`some q`) or missing/non-numeric (`none`, where `Number(...)` yields `NaN`
and `NaN || 0` is `0`). -/

/-- `Number(x) || 0`. -/
def numOr0 : Option ℚ → ℚ
  | some q => q
  | none => 0

/-- An item as submitted to `createInvoice` (`Omit<InvoiceItem, 'id'>`). -/
structure RawItem where
  description : String
  quantity : Option ℚ
  price : Option ℚ
deriving DecidableEq, Repr

/-- A normalized item, as produced by the `items.map(...)` step. -/
structure CalcItem where
  description : String
  quantity : ℚ
  price : ℚ
  total : ℚ
deriving DecidableEq, Repr

/-- One entry of `calculatedItems`. -/
def calcItem (it : RawItem) : CalcItem :=
  { description := it.description
    quantity := numOr0 it.quantity
    price := numOr0 it.price
    total := numOr0 it.quantity * numOr0 it.price }

inductive DiscountType where
  | fixed
  | percentage
deriving DecidableEq, Repr

/-- The four amounts `createInvoice` stores on the header. -/
structure InvoiceTotals where
  subTotal : ℚ
  discountValue : ℚ
  discountAmount : ℚ
  grandTotal : ℚ
deriving DecidableEq, Repr

/-- The amount computation of `createInvoice` (lines computing
`calculatedItems`, `subTotal`, `discountAmount`, `grandTotal`; the raw
`discountValue` is stored on the header unchanged). -/
def invoiceTotals (items : List RawItem) (discountType : DiscountType)
    (discountValue : ℚ) : InvoiceTotals :=
  let calculatedItems := items.map calcItem
  let subTotal := (calculatedItems.map (·.total)).foldl (· + ·) 0
  let discountAmount :=
    match discountType with
    | .percentage => subTotal * (discountValue / 100)
    | .fixed => discountValue
  let grandTotal := max 0 (subTotal - discountAmount)
  { subTotal := subTotal, discountValue := discountValue,
    discountAmount := discountAmount, grandTotal := grandTotal }

theorem foldl_add_eq_sum (l : List ℚ) (a : ℚ) :
    l.foldl (· + ·) a = a + l.sum := by
  induction l generalizing a with
  | nil => simp
  | cons x xs ih =>
    rw [List.foldl_cons, ih, List.sum_cons]
    ring

/-- C2: the stored header satisfies the discount and total formulas —
`discountAmount = discountValue` for a fixed discount and
`subTotal * discountValue / 100` for a percentage discount,
`grandTotal = max 0 (subTotal - discountAmount)`, `subTotal` is the sum of
the item totals — and the concrete scenario
`[{qty:2, price:100}, {qty:1, price:50}]` with a 10 percent discount yields
`subTotal = 250`, `discountAmount = 25`, `grandTotal = 225`. -/
theorem createInvoice_totals_formulas (items : List RawItem)
    (dt : DiscountType) (dv : ℚ) :
    (invoiceTotals items dt dv).subTotal = ((items.map calcItem).map (·.total)).sum ∧
    (invoiceTotals items dt dv).discountValue = dv ∧
    (invoiceTotals items dt dv).discountAmount =
      (match dt with
        | .fixed => dv
        | .percentage => (invoiceTotals items dt dv).subTotal * dv / 100) ∧
    (invoiceTotals items dt dv).grandTotal =
      max 0 ((invoiceTotals items dt dv).subTotal -
        (invoiceTotals items dt dv).discountAmount) ∧
    invoiceTotals [⟨"Item A", some 2, some 100⟩, ⟨"Item B", some 1, some 50⟩]
        .percentage 10 = ⟨250, 10, 25, 225⟩ := by
  refine ⟨?_, rfl, ?_, rfl, by norm_num [invoiceTotals, calcItem, numOr0]⟩
  · show ((items.map calcItem).map (·.total)).foldl (· + ·) 0 = _
    rw [foldl_add_eq_sum, zero_add]
  · cases dt with
    | fixed => rfl
    | percentage =>
      show (invoiceTotals items .percentage dv).subTotal * (dv / 100) = _
      rw [mul_div_assoc]

/-- C7 counterexample: with items `[{qty: -1, price: 100}]` and a fixed
discount of `-1`, the stored `subTotal`, `discountValue` and
`discountAmount` are all negative, refuting the unconditional
non-negativity of the stored amounts. -/
theorem negative_inputs_give_negative_stored_amounts :
    (invoiceTotals [⟨"Item A", some (-1), some 100⟩] .fixed (-1)).subTotal < 0 ∧
    (invoiceTotals [⟨"Item A", some (-1), some 100⟩] .fixed (-1)).discountValue < 0 ∧
    (invoiceTotals [⟨"Item A", some (-1), some 100⟩] .fixed (-1)).discountAmount < 0 := by
  norm_num [invoiceTotals, calcItem, numOr0]

/-- C7 amended: the stored `subTotal`, `discountValue`, `discountAmount` and
`grandTotal` are all non-negative provided each item's coerced quantity and
price are non-negative and the caller-supplied `discountValue` is
non-negative; without those conditions only `grandTotal` is clamped. -/
theorem totals_nonneg_of_nonneg_inputs (items : List RawItem)
    (dt : DiscountType) (dv : ℚ)
    (hitems : ∀ it ∈ items, 0 ≤ numOr0 it.quantity ∧ 0 ≤ numOr0 it.price)
    (hdv : 0 ≤ dv) :
    0 ≤ (invoiceTotals items dt dv).subTotal ∧
    0 ≤ (invoiceTotals items dt dv).discountValue ∧
    0 ≤ (invoiceTotals items dt dv).discountAmount ∧
    0 ≤ (invoiceTotals items dt dv).grandTotal := by
  have hsub : 0 ≤ (invoiceTotals items dt dv).subTotal := by
    show 0 ≤ ((items.map calcItem).map (·.total)).foldl (· + ·) 0
    rw [foldl_add_eq_sum, zero_add]
    refine List.sum_nonneg ?_
    intro x hx
    rw [List.mem_map] at hx
    obtain ⟨ci, hci, rfl⟩ := hx
    rw [List.mem_map] at hci
    obtain ⟨it, hit, rfl⟩ := hci
    exact mul_nonneg (hitems it hit).1 (hitems it hit).2
  refine ⟨hsub, hdv, ?_, le_max_left 0 _⟩
  cases dt with
  | fixed => exact hdv
  | percentage =>
    show 0 ≤ (invoiceTotals items .percentage dv).subTotal * (dv / 100)
    exact mul_nonneg hsub (div_nonneg hdv (by norm_num))

theorem totals_nonneg_of_nonneg_inputs_witness :
    0 ≤ (invoiceTotals [⟨"Item A", some 2, some 100⟩] .fixed 5).subTotal ∧
    0 ≤ (invoiceTotals [⟨"Item A", some 2, some 100⟩] .fixed 5).discountValue ∧
    0 ≤ (invoiceTotals [⟨"Item A", some 2, some 100⟩] .fixed 5).discountAmount ∧
    0 ≤ (invoiceTotals [⟨"Item A", some 2, some 100⟩] .fixed 5).grandTotal :=
  totals_nonneg_of_nonneg_inputs _ _ _
    (by
      intro it hit
      rw [List.mem_singleton] at hit
      subst hit
      exact ⟨by norm_num [numOr0], by norm_num [numOr0]⟩)
    (by norm_num)

/-! ### Document store model for the repository operations

Headers live in a flat collection; each header owns a nested item
collection, modelled as a list of `(headerId, item)` pairs.  The stateful
operations return the (possibly updated) store together with an optional
error; a thrown error carries the store as it was at the moment of the
throw. -/

/-- A header's `createdAt`: either a store-native `Timestamp` or a generic
date-like value (the fallback sort handles both via
`instanceof Timestamp ? toMillis() : new Date(...).getTime()`). -/
inductive CreatedAt where
  | timestamp (millis : ℤ)
  | datelike (millis : ℤ)
deriving DecidableEq, Repr

/-- Epoch milliseconds of a `createdAt` value, per the two branches of the
fallback comparator. -/
def toMillis : CreatedAt → ℤ
  | .timestamp m => m
  | .datelike m => m

/-- An invoice header document (the fields relevant to the list, rename and
delete paths; `customerName` and `subTotal` stand in for the remaining
scalar payload, which these operations never touch). -/
structure HeaderDoc where
  id : String
  userId : String
  invoiceNumber : String
  createdAt : CreatedAt
  customerName : String
  subTotal : ℚ
deriving DecidableEq, Repr

/-- An item document in a header's `items` subcollection. -/
structure ItemDoc where
  description : String
  quantity : ℚ
  price : ℚ
  total : ℚ
deriving DecidableEq, Repr

/-- The persisted state: the `invoices` collection plus every header's
`items` subcollection, keyed by header id. -/
structure Store where
  headers : List HeaderDoc
  items : List (String × ItemDoc)
deriving DecidableEq, Repr

/-- The errors the service throws: `"Invoice not found"`,
`"Unauthorized to ..."`, `"Invoice number already exists"`. -/
inductive ServiceError where
  | notFound
  | unauthorized
  | duplicateNumber
deriving DecidableEq, Repr

/-- `invoiceService.deleteInvoice`: fetch the header, throw `NotFound` if
absent, throw `Unauthorized` on owner mismatch, otherwise delete every item
of the subcollection and then the header. -/
def deleteInvoice (s : Store) (invoiceId userId : String) :
    Option ServiceError × Store :=
  match s.headers.find? (fun h => h.id == invoiceId) with
  | none => (some .notFound, s)
  | some h =>
    if h.userId != userId then
      (some .unauthorized, s)
    else
      let afterItems : Store :=
        { s with items := s.items.filter (fun p => p.1 != invoiceId) }
      let afterHeader : Store :=
        { afterItems with
            headers := afterItems.headers.filter (fun x => x.id != invoiceId) }
      (none, afterHeader)

/-- The per-user duplicate query
`where('userId','==',userId), where('invoiceNumber','==',newInvoiceNumber)`,
returning documents in collection order. -/
def duplicateQuery (s : Store) (userId invoiceNumber : String) :
    List HeaderDoc :=
  s.headers.filter (fun x => x.userId == userId && x.invoiceNumber == invoiceNumber)

/-- `updateDoc(invoiceRef, { invoiceNumber: newInvoiceNumber })`: rewrites
only the `invoiceNumber` field of the addressed header. -/
def applyRename (s : Store) (invoiceId newNumber : String) : Store :=
  { s with
      headers := s.headers.map
        (fun x => if x.id == invoiceId then { x with invoiceNumber := newNumber } else x) }

/-- `invoiceService.updateInvoiceNumber`: fetch + ownership check as in
delete, then the duplicate query; the code throws `DuplicateNumber` only
when the query is non-empty and its FIRST document's id differs from
`invoiceId` (`querySnapshot.docs[0].id !== invoiceId`). -/
def updateInvoiceNumber (s : Store) (invoiceId userId newNumber : String) :
    Option ServiceError × Store :=
  match s.headers.find? (fun h => h.id == invoiceId) with
  | none => (some .notFound, s)
  | some h =>
    if h.userId != userId then
      (some .unauthorized, s)
    else
      match duplicateQuery s userId newNumber with
      | m :: _ =>
        if m.id != invoiceId then
          (some .duplicateNumber, s)
        else
          (none, applyRename s invoiceId newNumber)
      | [] => (none, applyRename s invoiceId newNumber)

/-- A Firestore error as caught by `getInvoices`: an error code plus an
optional message. -/
structure StoreError where
  code : String
  message : Option String
deriving DecidableEq, Repr

/-- `error.code === 'failed-precondition' || error.message?.includes('index')`. -/
def isIndexError (e : StoreError) : Bool :=
  e.code == "failed-precondition" ||
    (match e.message with
      | some m => decide (2 ≤ (m.splitOn "index").length)
      | none => false)

/-- Stable insertion into an already ordered list: an existing element `x`
keeps its place in front of `h` whenever `le x h`. -/
def insertBy (le : HeaderDoc → HeaderDoc → Bool) (h : HeaderDoc) :
    List HeaderDoc → List HeaderDoc
  | [] => [h]
  | x :: xs => if le x h then x :: insertBy le h xs else h :: x :: xs

/-- A stable sort, modelling both the server-side `orderBy` and the
client-side `Array.prototype.sort` (stable per the language spec). -/
def sortBy (le : HeaderDoc → HeaderDoc → Bool) : List HeaderDoc → List HeaderDoc
  | [] => []
  | x :: xs => insertBy le x (sortBy le xs)

/-- Server ordering `orderBy('createdAt', 'desc')`: `a` may precede `b` when
its timestamp is at least `b`'s. -/
def serverDescLe (a b : HeaderDoc) : Bool :=
  decide (toMillis b.createdAt ≤ toMillis a.createdAt)

/-- The fallback comparator `(a, b) => bTime - aTime`. -/
def clientCmp (a b : HeaderDoc) : ℤ :=
  toMillis b.createdAt - toMillis a.createdAt

/-- Under `Array.prototype.sort`, `a` may precede `b` when the comparator is
non-positive. -/
def clientDescLe (a b : HeaderDoc) : Bool :=
  decide (clientCmp a b ≤ 0)

/-- `where('userId', '==', userId)`. -/
def userFilter (s : Store) (userId : String) : List HeaderDoc :=
  s.headers.filter (fun h => h.userId == userId)

/-- The primary `getInvoices` query: filtered and server-sorted. -/
def primaryQuery (s : Store) (userId : String) : List HeaderDoc :=
  sortBy serverDescLe (userFilter s userId)

/-- The fallback `getInvoices` query: filtered only, then sorted client-side
with the millisecond comparator. -/
def fallbackQuery (s : Store) (userId : String) : List HeaderDoc :=
  sortBy clientDescLe (userFilter s userId)

/-- `invoiceService.getInvoices`: the two oracles say whether the primary
query and (if reached) the fallback query fail.  A failing primary query
falls back only on an index error; a failing fallback rethrows the
ORIGINAL error. -/
def getInvoices (s : Store) (userId : String)
    (primaryErr fallbackErr : Option StoreError) :
    Except StoreError (List HeaderDoc) :=
  match primaryErr with
  | none => .ok (primaryQuery s userId)
  | some e =>
    if isIndexError e then
      match fallbackErr with
      | none => .ok (fallbackQuery s userId)
      | some _ => .error e
    else
      .error e

/-- `invoiceService.checkInvoiceNumberExists`: the same per-user query as the
rename duplicate check, inspecting only `docs[0]`; any query failure is
caught and turned into `false`. -/
def checkInvoiceNumberExists (s : Store) (userId invoiceNumber : String)
    (excludeInvoiceId : Option String) (queryErr : Option StoreError) : Bool :=
  match queryErr with
  | some _ => false
  | none =>
    match duplicateQuery s userId invoiceNumber with
    | [] => false
    | d :: _ =>
      match excludeInvoiceId with
      | some ex => d.id != ex
      | none => true

/-- C5: an existing header whose owner differs from the caller makes
`deleteInvoice` fail with `Unauthorized`, the header and all item documents
untouched (the throw happens before any delete); an absent header makes it
fail with `NotFound`. -/
theorem deleteInvoice_guards (s : Store) (invoiceId userId : String) :
    (∀ h, s.headers.find? (fun x => x.id == invoiceId) = some h →
      h.userId ≠ userId →
      deleteInvoice s invoiceId userId = (some .unauthorized, s)) ∧
    (s.headers.find? (fun x => x.id == invoiceId) = none →
      deleteInvoice s invoiceId userId = (some .notFound, s)) := by
  constructor
  · intro h hfind hne
    unfold deleteInvoice
    rw [hfind]
    have hb : (h.userId != userId) = true := by
      simpa [bne_iff_ne] using hne
    simp [hb]
  · intro hfind
    unfold deleteInvoice
    rw [hfind]

/-- A store with one header owned by `"u"` together with one item document,
for exercising the delete guards. -/
def delStore : Store :=
  { headers :=
      [{ id := "a", userId := "u", invoiceNumber := "BILL/25/001",
         createdAt := .timestamp 0, customerName := "Ada", subTotal := 250 }],
    items := [("a", { description := "widget", quantity := 1, price := 250, total := 250 })] }

theorem deleteInvoice_guards_witness :
    deleteInvoice delStore "a" "v" = (some .unauthorized, delStore) :=
  (deleteInvoice_guards delStore "a" "v").1 _ rfl (by decide)

/-- C3 counterexample store: headers `"a"` and `"b"`, both owned by `"u"`,
already both carry the number `"X"`. -/
def dupStore : Store :=
  { headers :=
      [{ id := "a", userId := "u", invoiceNumber := "X",
         createdAt := .timestamp 0, customerName := "Ada", subTotal := 0 },
       { id := "b", userId := "u", invoiceNumber := "X",
         createdAt := .timestamp 1, customerName := "Bob", subTotal := 0 }],
    items := [] }

/-- C3 counterexample: renaming header `"a"` (which exists and is owned by
the caller `"u"`) to `"X"` succeeds even though header `"b" ≠ "a"`, owned by
the same user, already carries `"X"` — the code inspects only
`querySnapshot.docs[0]`, which here is `"a"` itself.  This refutes the claim
that any such call fails with `DuplicateNumber`. -/
theorem rename_misses_duplicate_behind_self :
    ((dupStore.headers.find? (fun h => h.id == "a")).map (fun h => h.userId)
      = some "u") ∧
    (∃ h ∈ dupStore.headers, h.userId = "u" ∧ h.invoiceNumber = "X" ∧ h.id ≠ "a") ∧
    (updateInvoiceNumber dupStore "a" "u" "X").1 = none := by
  refine ⟨rfl,
    ⟨{ id := "b", userId := "u", invoiceNumber := "X",
       createdAt := .timestamp 1, customerName := "Bob", subTotal := 0 },
      ?_, rfl, rfl, by decide⟩, rfl⟩
  simp [dupStore]

/-- C3 amended: with the header present and owned by the caller, the rename
fails with `DuplicateNumber` (and mutates nothing) exactly when the FIRST
result of the per-user duplicate query has an id different from `headerId`;
otherwise (no match, or the first match is the renamed header itself) it
succeeds, rewriting only that header's `invoiceNumber` — a second duplicate
hidden behind the header itself escapes detection. -/
theorem rename_duplicate_check_first_match_only (s : Store)
    (invoiceId userId newNumber : String) (h : HeaderDoc)
    (hfind : s.headers.find? (fun x => x.id == invoiceId) = some h)
    (hown : h.userId = userId) :
    (∀ m, (duplicateQuery s userId newNumber).head? = some m → m.id ≠ invoiceId →
      updateInvoiceNumber s invoiceId userId newNumber = (some .duplicateNumber, s)) ∧
    ((∀ m, (duplicateQuery s userId newNumber).head? = some m → m.id = invoiceId) →
      updateInvoiceNumber s invoiceId userId newNumber =
        (none, applyRename s invoiceId newNumber)) := by
  have hb : (h.userId != userId) = false := by simp [hown]
  constructor
  · intro m hm hne
    unfold updateInvoiceNumber
    rw [hfind]
    cases hq : duplicateQuery s userId newNumber with
    | nil => rw [hq] at hm; exact absurd hm (by simp)
    | cons m0 rest =>
      rw [hq] at hm
      have hm0 : m0 = m := by simpa using hm
      subst hm0
      have hbne : (m0.id != invoiceId) = true := by
        simpa [bne_iff_ne] using hne
      simp [hb, hq, hbne]
  · intro hall
    unfold updateInvoiceNumber
    rw [hfind]
    cases hq : duplicateQuery s userId newNumber with
    | nil => simp [hb, hq]
    | cons m0 rest =>
      have heq : m0.id = invoiceId := hall m0 (by rw [hq]; rfl)
      have hbne : (m0.id != invoiceId) = false := by simp [heq]
      simp [hb, hq, hbne]

/-- A store where renaming `"a"` to `"NEW"` collides with the distinct
header `"b"` that already carries `"NEW"`. -/
def renameStore : Store :=
  { headers :=
      [{ id := "a", userId := "u", invoiceNumber := "OLD",
         createdAt := .timestamp 0, customerName := "Ada", subTotal := 0 },
       { id := "b", userId := "u", invoiceNumber := "NEW",
         createdAt := .timestamp 1, customerName := "Bob", subTotal := 0 }],
    items := [] }

theorem rename_duplicate_check_first_match_only_witness :
    updateInvoiceNumber renameStore "a" "u" "NEW" =
      (some .duplicateNumber, renameStore) :=
  (rename_duplicate_check_first_match_only renameStore "a" "u" "NEW"
      { id := "a", userId := "u", invoiceNumber := "OLD",
        createdAt := .timestamp 0, customerName := "Ada", subTotal := 0 }
      rfl rfl).1
    { id := "b", userId := "u", invoiceNumber := "NEW",
      createdAt := .timestamp 1, customerName := "Bob", subTotal := 0 }
    rfl (by decide)

theorem mem_insertBy (le : HeaderDoc → HeaderDoc → Bool) (h x : HeaderDoc)
    (l : List HeaderDoc) : x ∈ insertBy le h l ↔ x = h ∨ x ∈ l := by
  induction l with
  | nil => simp [insertBy]
  | cons y ys ih =>
    unfold insertBy
    by_cases hc : le y h = true
    · simp [hc, ih]
      try tauto
    · simp [hc]
      try tauto

theorem mem_sortBy (le : HeaderDoc → HeaderDoc → Bool) (x : HeaderDoc)
    (l : List HeaderDoc) : x ∈ sortBy le l ↔ x ∈ l := by
  induction l with
  | nil => simp [sortBy]
  | cons y ys ih => simp [sortBy, mem_insertBy, ih]

theorem clientDescLe_eq_serverDescLe : clientDescLe = serverDescLe := by
  funext a b
  unfold clientDescLe serverDescLe clientCmp
  rw [decide_eq_decide]
  exact sub_nonpos

/-- C4: when the primary query fails with a missing-index error, the
degraded path returns exactly the owner's headers sorted by `createdAt`
descending — the same sequence the primary path would have produced — and
when the degraded query itself also fails, the original error is surfaced,
not the fallback's. -/
theorem getInvoices_degraded_path (s : Store) (userId : String)
    (e f : StoreError) (he : isIndexError e = true) :
    getInvoices s userId (some e) none = .ok (fallbackQuery s userId) ∧
    getInvoices s userId (some e) none = getInvoices s userId none none ∧
    (∀ h, h ∈ fallbackQuery s userId ↔ h ∈ s.headers ∧ h.userId = userId) ∧
    getInvoices s userId (some e) (some f) = .error e := by
  refine ⟨by simp [getInvoices, he], ?_, ?_, by simp [getInvoices, he]⟩
  · have : fallbackQuery s userId = primaryQuery s userId := by
      unfold fallbackQuery primaryQuery
      rw [clientDescLe_eq_serverDescLe]
    simp [getInvoices, he, this]
  · intro h
    unfold fallbackQuery userFilter
    rw [mem_sortBy, List.mem_filter]
    simp

theorem getInvoices_degraded_path_witness :
    getInvoices delStore "u" (some { code := "failed-precondition", message := none })
        none = .ok (fallbackQuery delStore "u") ∧
    getInvoices delStore "u" (some { code := "failed-precondition", message := none })
        none = getInvoices delStore "u" none none ∧
    (∀ h, h ∈ fallbackQuery delStore "u" ↔ h ∈ delStore.headers ∧ h.userId = "u") ∧
    getInvoices delStore "u" (some { code := "failed-precondition", message := none })
        (some { code := "unavailable", message := none }) =
      .error { code := "failed-precondition", message := none } :=
  getInvoices_degraded_path delStore "u" _ _ (by decide)

/-- C8: whenever the underlying per-user query fails — whatever the error —
`checkInvoiceNumberExists` returns `false` instead of propagating it, for
every owner, number and optional excluded id. -/
theorem checkInvoiceNumberExists_fails_open (s : Store)
    (userId invoiceNumber : String) (excludeInvoiceId : Option String)
    (e : StoreError) :
    checkInvoiceNumberExists s userId invoiceNumber excludeInvoiceId (some e)
      = false := rfl

end Invoicing
